import Mathlib

set_option autoImplicit false

/-!
# Verification of the iQ-auth core against its specification

Shallow embedding of the iQ-auth authentication core:

* the Identity Registry (`packages/core/src/registry/identity-registry.ts`),
* the Plugin Loader (`packages/core/src/plugin-loader/index.ts`),
* the FIDO2 challenge-response provider (`packages/plugins/fido2/src/index.ts`)
  together with its session-token mint/verify helpers (shared in structure with
  `packages/core/src/providers/email-password.ts`).

JavaScript `Map`/storage state is modelled as functions from keys to `Option`
values; `Date.now()`, `Math.random()` and the external WebAuthn ceremonies are
effects, passed in as explicit parameters (the timestamp, the freshly generated
id, the ceremony outcome).  JavaScript strings are modelled as `String` for
registry/plugin keys and as `List Char` for the token-level functions, where
splitting on `':'` is analysed character by character.
-/

/-! ## Identity Registry (identity-registry.ts)

The registry persists through a key/value store whose keys are
`identity:<id>` for primary rows and `identity:user:<userId>` for the
per-user secondary index.  The two key families are disjoint for generated
ids (which always start with a decimal digit), so the store is modelled as
the two maps `prim` and `userIndex`.  `findByUser` returns the stored list
or `[]` when absent; storing `[]` and absence are indistinguishable to every
registry operation, so the index is modelled as a total function into lists.
-/

structure Identity where
  id : String
  type : String
  userId : String
  provider : String
  data : List (String × String)
  verified : Bool
  createdAt : Nat
  updatedAt : Nat
deriving DecidableEq, Repr

/-- The caller-supplied part of `register`'s argument
(`Omit<Identity, 'id' | 'createdAt' | 'updatedAt'>`). -/
structure RegisterInput where
  type : String
  userId : String
  provider : String
  data : List (String × String)
  verified : Bool
deriving DecidableEq, Repr

/-- `Partial<Identity>`: a field is `some v` when the payload carries it.
`update` force-overrides `id`, `createdAt` and `updatedAt`, so those payload
fields are representable but never read. -/
structure IdentityPatch where
  id : Option String := none
  type : Option String := none
  userId : Option String := none
  provider : Option String := none
  data : Option (List (String × String)) := none
  verified : Option Bool := none
  createdAt : Option Nat := none
  updatedAt : Option Nat := none
deriving DecidableEq, Repr

structure RegistryState where
  prim : String → Option Identity
  userIndex : String → List Identity

def Registry.emptyState : RegistryState :=
  { prim := fun _ => none, userIndex := fun _ => [] }

def Registry.get (st : RegistryState) (id : String) : Option Identity :=
  st.prim id

def Registry.findByUser (st : RegistryState) (userId : String) : List Identity :=
  st.userIndex userId

/-- `register`: build the new identity with a freshly generated id and both
timestamps stamped to now, write the primary row, then rewrite the user's
secondary index to append the new row.  `freshId` and `now` stand for the
effectful `generateId()` / `new Date()` calls. -/
def Registry.freshIdentity (input : RegisterInput) (freshId : String)
    (now : Nat) : Identity :=
  { id := freshId, type := input.type, userId := input.userId,
    provider := input.provider, data := input.data, verified := input.verified,
    createdAt := now, updatedAt := now }

def Registry.register (st : RegistryState) (input : RegisterInput)
    (freshId : String) (now : Nat) : Identity × RegistryState :=
  let newIdentity : Identity := Registry.freshIdentity input freshId now
  let prim1 := fun k => if k = freshId then some newIdentity else st.prim k
  let userIdentities := st.userIndex input.userId
  (newIdentity,
   { prim := prim1,
     userIndex := fun u =>
       if u = input.userId then userIdentities ++ [newIdentity]
       else st.userIndex u })

/-- The merge `{...existing, ...data, id: existing.id, createdAt:
existing.createdAt, updatedAt: new Date()}`. -/
def Registry.applyPatch (existing : Identity) (data : IdentityPatch)
    (now : Nat) : Identity :=
  { id := existing.id
    type := data.type.getD existing.type
    userId := data.userId.getD existing.userId
    provider := data.provider.getD existing.provider
    data := data.data.getD existing.data
    verified := data.verified.getD existing.verified
    createdAt := existing.createdAt
    updatedAt := now }

/-- `update`: throws `Identity <id> not found` when the id is absent;
otherwise merges and rewrites only the primary row (the user index is not
touched by `update`). -/
def Registry.update (st : RegistryState) (id : String) (data : IdentityPatch)
    (now : Nat) : Except String Identity × RegistryState :=
  match st.prim id with
  | none => (Except.error ("Identity " ++ id ++ " not found"), st)
  | some existing =>
    let updated := Registry.applyPatch existing data now
    (Except.ok updated,
     { st with prim := fun k => if k = id then some updated else st.prim k })

/-- `delete`: `false` when the id is absent; otherwise removes the primary
row and rewrites the owner's index filtered on `i.id !== id`. -/
def Registry.delete (st : RegistryState) (id : String) : Bool × RegistryState :=
  match st.prim id with
  | none => (false, st)
  | some identity =>
    let prim1 := fun k => if k = id then none else st.prim k
    let filtered := (st.userIndex identity.userId).filter (fun i => i.id != id)
    (true,
     { prim := prim1,
       userIndex := fun u =>
         if u = identity.userId then filtered else st.userIndex u })

structure VerifyIdentityResult where
  verified : Bool
  error : Option String := none
deriving DecidableEq, Repr

/-- `verifyIdentity`: looks the identity up, then delegates to
`update(id, {verified: true})`; the proof argument is not inspected. -/
def Registry.verifyIdentity (st : RegistryState) (id : String)
    (now : Nat) : VerifyIdentityResult × RegistryState :=
  match st.prim id with
  | none => ({ verified := false, error := some "Identity not found" }, st)
  | some _ =>
    let r := Registry.update st id { verified := some true } now
    ({ verified := true }, r.2)

structure DeactivateResult where
  success : Bool
  error : Option String := none
deriving DecidableEq, Repr

/-- The annotation `{...identity.data, deactivated: true, deactivatedAt:
<iso now>, deactivationReason: reason}`; assoc-list with later-wins lookup. -/
def Registry.deactivateData (d : List (String × String)) (nowIso reason : String) :
    List (String × String) :=
  d ++ [("deactivated", "true"), ("deactivatedAt", nowIso),
        ("deactivationReason", reason)]

/-- `deactivate`: soft delete via `update` with `verified := false` and the
annotated data bag. -/
def Registry.deactivate (st : RegistryState) (id reason nowIso : String)
    (now : Nat) : DeactivateResult × RegistryState :=
  match st.prim id with
  | none => ({ success := false, error := some "Identity not found" }, st)
  | some identity =>
    let r := Registry.update st id
      { verified := some false,
        data := some (Registry.deactivateData identity.data nowIso reason) } now
    ({ success := true }, r.2)

/-! ### Operation sequences over the registry

`RegOp` packages one call to a mutating registry operation, together with the
effectful inputs (`generateId()` output, `Date.now()`); `Registry.run` folds a
finite call sequence over a state. -/

inductive RegOp where
  | register (input : RegisterInput) (freshId : String) (now : Nat)
  | update (id : String) (data : IdentityPatch) (now : Nat)
  | verifyIdentity (id : String) (now : Nat)
  | deactivate (id reason nowIso : String) (now : Nat)
  | delete (id : String)

def Registry.step (st : RegistryState) : RegOp → RegistryState
  | .register input freshId now => (Registry.register st input freshId now).2
  | .update id data now => (Registry.update st id data now).2
  | .verifyIdentity id now => (Registry.verifyIdentity st id now).2
  | .deactivate id reason nowIso now => (Registry.deactivate st id reason nowIso now).2
  | .delete id => (Registry.delete st id).2

def Registry.run (st : RegistryState) : List RegOp → RegistryState
  | [] => st
  | op :: ops => Registry.run (Registry.step st op) ops

/-- Side conditions under which an operation is issued: a `register` uses a
generated id that does not repeat an id already present in the primary store
(the code itself performs no uniqueness check), and an `update` payload does
not move the identity to a different user (no payload built by the registry
itself ever carries `userId`). -/
def Registry.okOp (st : RegistryState) : RegOp → Prop
  | .register _ freshId _ => st.prim freshId = none
  | .update _ data _ => data.userId = none
  | _ => True

def Registry.okSeq : RegistryState → List RegOp → Prop
  | _, [] => True
  | st, op :: ops => Registry.okOp st op ∧ Registry.okSeq (Registry.step st op) ops

/-- Membership agreement between the secondary index and the primary store:
every index entry under `u` belongs to `u`, the index holds no duplicate ids,
and an id is listed under `u` exactly when its primary row exists and is owned
by `u`.  (Field values of index entries can still lag behind the primary row:
`update` rewrites only the primary row.) -/
def Registry.Inv (st : RegistryState) : Prop :=
  ∀ u : String,
    (∀ j ∈ st.userIndex u, j.userId = u) ∧
    ((st.userIndex u).map Identity.id).Nodup ∧
    ∀ i : String,
      i ∈ (st.userIndex u).map Identity.id ↔
        ∃ j, st.prim i = some j ∧ j.userId = u

/-! ## Session-token helpers (fido2/src/index.ts, email-password.ts)

Token strings are modelled as `List Char`.  `signToken` is the FIDO2
provider's keyed hash: the JavaScript 32-bit rolling hash
`hash = (hash << 5) - hash + charCode; hash = hash & hash` over
`<userId>:<timestamp>:<secret>`, then `Math.abs(hash).toString(36)`.
The signing secret (`process.env.JWT_SECRET` with a hard-coded default)
is an explicit parameter. -/

def jsStr (s : String) : List Char := s.data

/-- JavaScript `ToInt32`: wrap into `[-2^31, 2^31)`. -/
def toInt32 (n : Int) : Int := (n + 2147483648) % 4294967296 - 2147483648

/-- One step of the rolling hash; the running value is always an int32, so
`hash << 5` is `ToInt32 (hash * 32)` and the trailing `& hash` is `ToInt32`
of the exact sum.  `charCodeAt` is the character code (BMP characters). -/
def jsHashStep (h : Int) (c : Char) : Int :=
  toInt32 (toInt32 (h * 32) - h + (c.toNat : Int))

def jsHash (s : List Char) : Int := s.foldl jsHashStep 0

/-- Digit characters of `Number.prototype.toString(36)`: 0-9 then a-z. -/
def base36Digit (n : Nat) : Char :=
  if n < 10 then Char.ofNat (48 + n) else Char.ofNat (87 + n)

/-- Base-36 rendering with explicit fuel bounding the digit count: one unit
of fuel per digit, so fuel 64 is exact for every value below `36 ^ 64`
(int32 magnitudes need at most 6 digits). -/
def natToBase36Aux : Nat → Nat → List Char
  | 0, _ => []
  | fuel + 1, n =>
    if n < 36 then [base36Digit n]
    else natToBase36Aux fuel (n / 36) ++ [base36Digit (n % 36)]

def natToBase36 (n : Nat) : List Char := natToBase36Aux 64 n

def decDigit (n : Nat) : Char := Char.ofNat (48 + n)

/-- Decimal rendering of `Number.prototype.toString()` for nonnegative
integers, fuel-bounded like `natToBase36Aux` (exact below `10 ^ 64`). -/
def natToDecAux : Nat → Nat → List Char
  | 0, _ => []
  | fuel + 1, n =>
    if n < 10 then [decDigit n]
    else natToDecAux fuel (n / 10) ++ [decDigit (n % 10)]

def natToDec (n : Nat) : List Char := natToDecAux 64 n

def isDecDigit (c : Char) : Bool := 48 ≤ c.toNat && c.toNat ≤ 57

def decDigitsVal (ds : List Char) : Nat :=
  ds.foldl (fun a c => a * 10 + (c.toNat - 48)) 0

/-- Sign-and-digits part of `parseInt`: an optional sign, then the maximal
run of decimal digits; `none` models `NaN` (no digits).  Trailing garbage
after the digits is ignored, as in JS. -/
def parseIntSigned : List Char → Option Int
  | [] => none
  | c :: rest =>
    if c = '-' then
      (if (rest.takeWhile isDecDigit).isEmpty then none
       else some (-(decDigitsVal (rest.takeWhile isDecDigit) : Int)))
    else if c = '+' then
      (if (rest.takeWhile isDecDigit).isEmpty then none
       else some ((decDigitsVal (rest.takeWhile isDecDigit) : Int)))
    else
      (if ((c :: rest).takeWhile isDecDigit).isEmpty then none
       else some ((decDigitsVal ((c :: rest).takeWhile isDecDigit) : Int)))

/-- JavaScript `parseInt(s, 10)`: skip leading whitespace, then sign and
digits. -/
def parseIntJS (s : List Char) : Option Int :=
  parseIntSigned (s.dropWhile (fun c => c = ' '))

/-- `String.prototype.split(':')`. -/
def splitOnColon : List Char → List (List Char)
  | [] => [[]]
  | c :: rest =>
    match splitOnColon rest with
    | [] => [[]]
    | p :: ps => if c = ':' then [] :: p :: ps else (c :: p) :: ps

def FIDO2.signToken (secret userId timestamp : List Char) : List Char :=
  natToBase36 (jsHash (userId ++ ':' :: timestamp ++ ':' :: secret)).natAbs

/-- `generateSessionToken`: `<userId>:<Date.now()>:<signature>`; the minter
performs no validation of `userId`. -/
def FIDO2.generateSessionToken (secret userId : List Char) (now : Nat) :
    List Char :=
  let timestamp := natToDec now
  let signature := FIDO2.signToken secret userId timestamp
  userId ++ ':' :: (timestamp ++ ':' :: signature)

structure VerifyResult where
  valid : Bool
  userId : Option (List Char) := none
  expiresAt : Option Int := none
  error : Option (List Char) := none
deriving DecidableEq, Repr

/-- The 24-hour expiry check `Date.now() > tokenTime + 24*60*60*1000`; the
`none` case is `parseInt` returning `NaN`, for which the JS comparison is
false, so the token is reported valid (with an invalid expiry date). -/
def FIDO2.verifyTime (now : Nat) (userId : List Char) :
    Option Int → VerifyResult
  | some tokenTime =>
    if (now : Int) > tokenTime + 86400000 then
      { valid := false, error := some (jsStr "Token expired") }
    else
      { valid := true, userId := some userId,
        expiresAt := some (tokenTime + 86400000) }
  | none => { valid := true, userId := some userId, expiresAt := none }

def FIDO2.verifyParts (secret : List Char) (now : Nat) :
    List (List Char) → VerifyResult
  | [userId, timestamp, signature] =>
    if signature ≠ FIDO2.signToken secret userId timestamp then
      { valid := false, error := some (jsStr "Invalid token signature") }
    else
      FIDO2.verifyTime now userId (parseIntJS timestamp)
  | _ => { valid := false, error := some (jsStr "Invalid token format") }

/-- `verify`: split on `':'`; exactly three fields, then the keyed-hash
signature over the first two, then the 24-hour window. -/
def FIDO2.verify (secret token : List Char) (now : Nat) : VerifyResult :=
  FIDO2.verifyParts secret now (splitOnColon token)

/-! ## FIDO2 challenge-response provider state and ceremonies

Provider-private in-memory maps, keyed by base64url credential id and by
challenge key (the `userId` for registration, a generated opaque id for
authentication).  The WebAuthn browser ceremonies are external: their
outcome is a parameter (`Except` error = the ceremony threw, `none` = it
returned `null`, `some` = the parsed credential/assertion response). -/

structure FIDO2Credential where
  id : List Char
  publicKey : List Char
  counter : Nat
  userId : List Char
  createdAt : Nat
deriving DecidableEq, Repr

structure FIDO2Challenge where
  value : Nat
  timestamp : Nat
deriving DecidableEq, Repr

structure FIDO2State where
  credentials : List Char → Option FIDO2Credential
  challenges : List Char → Option FIDO2Challenge

/-- Outcome of `navigator.credentials.get` after client-data JSON parsing:
base64url credential id, parsed `clientData.type` / `clientData.origin`, and
the raw authenticator-data bytes. -/
structure Assertion where
  credentialId : List Char
  clientDataType : List Char
  clientDataOrigin : List Char
  authData : List Nat
deriving DecidableEq, Repr

/-- Outcome of `navigator.credentials.create` after parsing. -/
structure Attestation where
  credentialId : List Char
  publicKey : List Char
  clientDataType : List Char
  clientDataOrigin : List Char
deriving DecidableEq, Repr

structure AuthResult where
  success : Bool
  token : Option (List Char) := none
  userId : Option (List Char) := none
  metadata : Option (List Char × Nat) := none
  error : Option (List Char) := none
deriving DecidableEq, Repr

/-- `getCounterFromAuthData`: big-endian uint32 at bytes 33-36. -/
def FIDO2.getCounterFromAuthData (authData : List Nat) : Nat :=
  ((authData.drop 33).take 4).foldl (fun acc b => acc * 256 + b % 256) 0

/-- `authenticate`: mints and stores a fresh challenge under a generated
challenge id (`generateAuthenticationOptions`), runs the external assertion
ceremony, then validates credential existence, client-data type, origin and
the strictly-increasing counter; on success advances the stored counter and
mints a session token.  No path deletes any challenge entry. -/
def FIDO2.authenticate (st : FIDO2State) (configOrigin secret : List Char)
    (supported : Bool) (freshChallengeId : List Char)
    (challengeValue ts now : Nat)
    (ceremony : Except (List Char) (Option Assertion)) :
    AuthResult × FIDO2State :=
  if supported then
    let st1 : FIDO2State :=
      { st with challenges := fun k =>
          if k = freshChallengeId
          then some { value := challengeValue, timestamp := ts }
          else st.challenges k }
    match ceremony with
    | Except.error e =>
      ({ success := false,
         error := some (jsStr "FIDO2 authentication failed: " ++ e) }, st1)
    | Except.ok none =>
      ({ success := false,
         error := some (jsStr "Authentication failed: no credential returned") },
       st1)
    | Except.ok (some a) =>
      match st1.credentials a.credentialId with
      | none =>
        ({ success := false, error := some (jsStr "Credential not found") }, st1)
      | some storedCredential =>
        if a.clientDataType ≠ jsStr "webauthn.get" then
          ({ success := false,
             error := some (jsStr "Invalid client data type") }, st1)
        else if a.clientDataOrigin ≠ configOrigin then
          ({ success := false, error := some (jsStr "Origin mismatch") }, st1)
        else if a.authData.length < 37 then
          ({ success := false,
             error := some (jsStr "FIDO2 authentication failed: Offset is outside the bounds of the DataView") },
           st1)
        else
          let counter := FIDO2.getCounterFromAuthData a.authData
          if counter ≤ storedCredential.counter then
            ({ success := false,
               error := some
                 (jsStr "Invalid counter - possible cloned authenticator") },
             st1)
          else
            ({ success := true, userId := some storedCredential.userId,
               token := some
                 (FIDO2.generateSessionToken secret storedCredential.userId now),
               metadata := some (a.credentialId, counter) },
             { st1 with credentials := fun k =>
                 if k = a.credentialId
                 then some { storedCredential with counter := counter }
                 else st1.credentials k })
  else
    ({ success := false,
       error := some (jsStr "WebAuthn is not supported in this environment") },
     st)

structure RegistrationOptions where
  userId : List Char
  userName : List Char
  userDisplayName : List Char
deriving DecidableEq, Repr

/-- `register`: stores a fresh challenge keyed by `options.userId`
(`generateRegistrationOptions`), runs the external creation ceremony, then
validates challenge existence, client-data type and origin.  On success the
new credential is stored with `counter = 0` and the challenge is deleted;
every failure inside the try block lands in the catch, which also deletes
the challenge before rethrowing a wrapped error. -/
def FIDO2.register (st : FIDO2State) (configOrigin : List Char)
    (supported : Bool) (options : RegistrationOptions)
    (challengeValue ts now : Nat)
    (ceremony : Except (List Char) (Option Attestation)) :
    Except (List Char) FIDO2Credential × FIDO2State :=
  if supported then
    let st1 : FIDO2State :=
      { st with challenges := fun k =>
          if k = options.userId
          then some { value := challengeValue, timestamp := ts }
          else st.challenges k }
    let attempt : Except (List Char) FIDO2Credential :=
      match ceremony with
      | Except.error e => Except.error e
      | Except.ok none =>
        Except.error (jsStr "Registration failed: no credential returned")
      | Except.ok (some att) =>
        match st1.challenges options.userId with
        | none => Except.error (jsStr "Challenge not found")
        | some _ =>
          if att.clientDataType ≠ jsStr "webauthn.create" then
            Except.error (jsStr "Invalid client data type")
          else if att.clientDataOrigin ≠ configOrigin then
            Except.error (jsStr "Origin mismatch")
          else
            Except.ok { id := att.credentialId, publicKey := att.publicKey,
                        counter := 0, userId := options.userId,
                        createdAt := now }
    match attempt with
    | Except.ok cred =>
      (Except.ok cred,
       { credentials := fun k =>
           if k = cred.id then some cred else st1.credentials k,
         challenges := fun k =>
           if k = options.userId then none else st1.challenges k })
    | Except.error e =>
      (Except.error (jsStr "FIDO2 registration failed: " ++ e),
       { st1 with challenges := fun k =>
           if k = options.userId then none else st1.challenges k })
  else
    (Except.error (jsStr "WebAuthn is not supported in this environment"), st)

/-! ## Plugin Loader (plugin-loader/index.ts)

`destroy` is the plugin's own effectful teardown; its outcome is part of the
plugin model (`destroyError = some e` means `destroy()` rejects with `e`).
Thrown lifecycle errors are modelled as `Except.error`. -/

structure Plugin where
  name : String
  destroyError : Option String
deriving DecidableEq, Repr

structure LoaderState where
  plugins : String → Option Plugin

def PluginLoader.get (st : LoaderState) (pluginName : String) : Option Plugin :=
  st.plugins pluginName

def PluginLoader.register (st : LoaderState) (p : Plugin) :
    Except String Unit × LoaderState :=
  match st.plugins p.name with
  | some _ =>
    (Except.error ("Plugin \"" ++ p.name ++ "\" is already registered"), st)
  | none =>
    (Except.ok (),
     { plugins := fun k => if k = p.name then some p else st.plugins k })

/-- `unregister`: `NotFound` for an unknown name; otherwise `await
plugin.destroy()` runs first, and only when it does not throw does control
reach `this.plugins.delete(pluginName)` — a rejected `destroy` propagates
with the table unchanged. -/
def PluginLoader.unregister (st : LoaderState) (pluginName : String) :
    Except String Unit × LoaderState :=
  match st.plugins pluginName with
  | none =>
    (Except.error ("Plugin \"" ++ pluginName ++ "\" not found"), st)
  | some p =>
    match p.destroyError with
    | some e => (Except.error e, st)
    | none =>
      (Except.ok (),
       { plugins := fun k => if k = pluginName then none else st.plugins k })

/-! ## Concrete fixtures used by witnesses and counterexamples -/

def inpW : RegisterInput :=
  { type := "wallet", userId := "u1", provider := "metamask",
    data := [("address", "0xabc")], verified := false }

def identW : Identity := Registry.freshIdentity inpW "id1" 0

def regW : RegistryState :=
  (Registry.register Registry.emptyState inpW "id1" 0).2

def inpW2 : RegisterInput :=
  { type := "device", userId := "u2", provider := "fido2",
    data := [], verified := false }

def inpW3 : RegisterInput :=
  { type := "device", userId := "u1", provider := "fido2",
    data := [], verified := false }


def credW : FIDO2Credential :=
  { id := jsStr "c1", publicKey := jsStr "pk", counter := 5,
    userId := jsStr "u1", createdAt := 0 }

def fidoStW : FIDO2State :=
  { credentials := fun k => if k = jsStr "c1" then some credW else none,
    challenges := fun _ => none }

def assertW : Assertion :=
  { credentialId := jsStr "c1", clientDataType := jsStr "webauthn.get",
    clientDataOrigin := jsStr "http://localhost:3000",
    authData := List.replicate 33 0 ++ [0, 0, 0, 6] }


def regOptW : RegistrationOptions :=
  { userId := jsStr "u1", userName := jsStr "User",
    userDisplayName := jsStr "User One" }

def pluginBadW : Plugin := { name := "bad", destroyError := some "destroy exploded" }

def pluginGoodW : Plugin := { name := "good", destroyError := none }

def loaderW : LoaderState :=
  { plugins := fun k =>
      if k = "bad" then some pluginBadW
      else if k = "good" then some pluginGoodW
      else none }


/-! ### Reduction lemmas for the registry operations -/

theorem Registry.register_fst (st : RegistryState) (input : RegisterInput)
    (freshId : String) (now : Nat) :
    (Registry.register st input freshId now).1 =
      Registry.freshIdentity input freshId now := rfl

theorem Registry.register_prim (st : RegistryState) (input : RegisterInput)
    (freshId : String) (now : Nat) (k : String) :
    (Registry.register st input freshId now).2.prim k =
      (if k = freshId then some (Registry.freshIdentity input freshId now)
       else st.prim k) := rfl

theorem Registry.register_userIndex (st : RegistryState) (input : RegisterInput)
    (freshId : String) (now : Nat) (u : String) :
    (Registry.register st input freshId now).2.userIndex u =
      (if u = input.userId
       then st.userIndex input.userId ++ [Registry.freshIdentity input freshId now]
       else st.userIndex u) := rfl

theorem Registry.update_none (st : RegistryState) (id : String)
    (data : IdentityPatch) (now : Nat) (h : st.prim id = none) :
    Registry.update st id data now =
      (Except.error ("Identity " ++ id ++ " not found"), st) := by
  simp [Registry.update, h]

theorem Registry.update_some (st : RegistryState) (id : String)
    (data : IdentityPatch) (now : Nat) (existing : Identity)
    (h : st.prim id = some existing) :
    Registry.update st id data now =
      (Except.ok (Registry.applyPatch existing data now),
       { st with prim := fun k =>
           if k = id then some (Registry.applyPatch existing data now)
           else st.prim k }) := by
  simp [Registry.update, h]

theorem Registry.delete_none (st : RegistryState) (id : String)
    (h : st.prim id = none) : Registry.delete st id = (false, st) := by
  simp [Registry.delete, h]

theorem Registry.delete_some (st : RegistryState) (id : String)
    (identity : Identity) (h : st.prim id = some identity) :
    Registry.delete st id =
      (true,
       { prim := fun k => if k = id then none else st.prim k,
         userIndex := fun u =>
           if u = identity.userId
           then (st.userIndex identity.userId).filter (fun i => i.id != id)
           else st.userIndex u }) := by
  simp [Registry.delete, h]

theorem Registry.verifyIdentity_none (st : RegistryState) (id : String)
    (now : Nat) (h : st.prim id = none) :
    Registry.verifyIdentity st id now =
      ({ verified := false, error := some "Identity not found" }, st) := by
  simp [Registry.verifyIdentity, h]

theorem Registry.verifyIdentity_some (st : RegistryState) (id : String)
    (now : Nat) (existing : Identity) (h : st.prim id = some existing) :
    Registry.verifyIdentity st id now =
      ({ verified := true },
       (Registry.update st id { verified := some true } now).2) := by
  simp [Registry.verifyIdentity, h]

theorem Registry.deactivate_none (st : RegistryState) (id reason nowIso : String)
    (now : Nat) (h : st.prim id = none) :
    Registry.deactivate st id reason nowIso now =
      ({ success := false, error := some "Identity not found" }, st) := by
  simp [Registry.deactivate, h]

theorem Registry.deactivate_some (st : RegistryState) (id reason nowIso : String)
    (now : Nat) (identity : Identity) (h : st.prim id = some identity) :
    Registry.deactivate st id reason nowIso now =
      ({ success := true },
       (Registry.update st id
         { verified := some false,
           data := some (Registry.deactivateData identity.data nowIso reason) }
         now).2) := by
  simp [Registry.deactivate, h]

/-! ### Preservation of the index/primary membership invariant -/

theorem Registry.inv_register (st : RegistryState) (input : RegisterInput)
    (freshId : String) (now : Nat) (hfresh : st.prim freshId = none)
    (hinv : Registry.Inv st) :
    Registry.Inv (Registry.register st input freshId now).2 := by
  intro u
  obtain ⟨hown, hnodup, hmem⟩ := hinv u
  obtain ⟨hownU, hnodupU, hmemU⟩ := hinv input.userId
  have hfreshNotMemU : freshId ∉ (st.userIndex input.userId).map Identity.id := by
    intro hc
    obtain ⟨j, hj, _⟩ := (hmemU freshId).mp hc
    rw [hfresh] at hj
    exact Option.noConfusion hj
  refine ⟨?_, ?_, ?_⟩
  · intro j hj
    rw [Registry.register_userIndex] at hj
    by_cases hu : u = input.userId
    · rw [if_pos hu] at hj
      rcases List.mem_append.mp hj with h | h
      · exact (hownU j h).trans hu.symm
      · have hjn : j = Registry.freshIdentity input freshId now := by
          simpa using h
        rw [hjn]
        exact hu.symm
    · rw [if_neg hu] at hj
      exact hown j hj
  · rw [Registry.register_userIndex]
    by_cases hu : u = input.userId
    · rw [if_pos hu, List.map_append]
      refine List.Nodup.append hnodupU (List.nodup_singleton _) ?_
      intro a ha hb
      have hb' : a = (Registry.freshIdentity input freshId now).id := by
        simpa using hb
      rw [hb'] at ha
      exact hfreshNotMemU ha
    · rw [if_neg hu]
      exact hnodup
  · intro i
    rw [Registry.register_userIndex]
    by_cases hu : u = input.userId
    · rw [if_pos hu, List.map_append]
      constructor
      · intro hi
        rcases List.mem_append.mp hi with h | h
        · obtain ⟨j, hj, hju⟩ := (hmemU i).mp h
          have hne : i ≠ freshId := by
            intro he
            rw [he] at h
            exact hfreshNotMemU h
          exact ⟨j, by rw [Registry.register_prim, if_neg hne]; exact hj,
            hju.trans hu.symm⟩
        · have hifr : i = freshId := by
            simpa using h
          refine ⟨Registry.freshIdentity input freshId now, ?_, hu.symm⟩
          rw [Registry.register_prim, if_pos hifr]
      · rintro ⟨j, hj, hju⟩
        rw [Registry.register_prim] at hj
        by_cases hif : i = freshId
        · refine List.mem_append.mpr (Or.inr ?_)
          simp only [List.map_cons, List.map_nil, List.mem_singleton]
          exact hif
        · rw [if_neg hif] at hj
          exact List.mem_append.mpr
            (Or.inl ((hmemU i).mpr ⟨j, hj, hju.trans hu⟩))
    · rw [if_neg hu]
      constructor
      · intro hi
        obtain ⟨j, hj, hju⟩ := (hmem i).mp hi
        have hne : i ≠ freshId := by
          intro he
          rw [he, hfresh] at hj
          exact Option.noConfusion hj
        exact ⟨j, by rw [Registry.register_prim, if_neg hne]; exact hj, hju⟩
      · rintro ⟨j, hj, hju⟩
        rw [Registry.register_prim] at hj
        by_cases hif : i = freshId
        · rw [if_pos hif] at hj
          have hj' : j = Registry.freshIdentity input freshId now :=
            (Option.some_inj.mp hj).symm
          rw [hj'] at hju
          exact absurd hju.symm hu
        · rw [if_neg hif] at hj
          exact (hmem i).mpr ⟨j, hj, hju⟩

theorem Registry.inv_update (st : RegistryState) (id : String)
    (data : IdentityPatch) (now : Nat) (hnouser : data.userId = none)
    (hinv : Registry.Inv st) :
    Registry.Inv (Registry.update st id data now).2 := by
  cases h : st.prim id with
  | none =>
    rw [Registry.update_none st id data now h]
    exact hinv
  | some existing =>
    rw [Registry.update_some st id data now existing h]
    intro u
    obtain ⟨hown, hnodup, hmem⟩ := hinv u
    refine ⟨hown, hnodup, ?_⟩
    intro i
    show i ∈ (st.userIndex u).map Identity.id ↔
      ∃ j, (if i = id then some (Registry.applyPatch existing data now)
            else st.prim i) = some j ∧ j.userId = u
    rw [hmem i]
    by_cases hif : i = id
    · rw [if_pos hif]
      have hap : (Registry.applyPatch existing data now).userId =
          existing.userId := by
        simp [Registry.applyPatch, hnouser]
      constructor
      · rintro ⟨j, hj, hju⟩
        rw [hif, h] at hj
        have hje : j = existing := (Option.some_inj.mp hj).symm
        rw [hje] at hju
        exact ⟨Registry.applyPatch existing data now, rfl, hap.trans hju⟩
      · rintro ⟨j, hj, hju⟩
        have hje : j = Registry.applyPatch existing data now :=
          (Option.some_inj.mp hj).symm
        rw [hje, hap] at hju
        exact ⟨existing, by rw [hif]; exact h, hju⟩
    · rw [if_neg hif]

theorem Registry.delete_prim_some (st : RegistryState) (id : String)
    (identity : Identity) (h : st.prim id = some identity) (k : String) :
    (Registry.delete st id).2.prim k = if k = id then none else st.prim k := by
  rw [Registry.delete_some st id identity h]

theorem Registry.delete_userIndex_some (st : RegistryState) (id : String)
    (identity : Identity) (h : st.prim id = some identity) (v : String) :
    (Registry.delete st id).2.userIndex v =
      (if v = identity.userId
       then (st.userIndex identity.userId).filter (fun i => i.id != id)
       else st.userIndex v) := by
  rw [Registry.delete_some st id identity h]

theorem Registry.inv_delete (st : RegistryState) (id : String)
    (hinv : Registry.Inv st) :
    Registry.Inv (Registry.delete st id).2 := by
  cases h : st.prim id with
  | none =>
    rw [Registry.delete_none st id h]
    exact hinv
  | some identity =>
    intro u
    obtain ⟨hown, hnodup, hmem⟩ := hinv u
    obtain ⟨hownU, hnodupU, hmemU⟩ := hinv identity.userId
    refine ⟨?_, ?_, ?_⟩
    · intro j hj
      rw [Registry.delete_userIndex_some st id identity h] at hj
      by_cases hu : u = identity.userId
      · rw [if_pos hu] at hj
        exact (hownU j (List.mem_filter.mp hj).1).trans hu.symm
      · rw [if_neg hu] at hj
        exact hown j hj
    · rw [Registry.delete_userIndex_some st id identity h]
      by_cases hu : u = identity.userId
      · rw [if_pos hu]
        exact List.Nodup.sublist
          (List.Sublist.map _ (List.filter_sublist _)) hnodupU
      · rw [if_neg hu]
        exact hnodup
    · intro i
      rw [Registry.delete_userIndex_some st id identity h]
      by_cases hu : u = identity.userId
      · rw [if_pos hu]
        constructor
        · intro hi
          obtain ⟨j, hjmem, hjid⟩ := List.mem_map.mp hi
          obtain ⟨hjl, hjp⟩ := List.mem_filter.mp hjmem
          have hine : i ≠ id := by
            have hb : j.id ≠ id := bne_iff_ne.mp hjp
            rw [hjid] at hb
            exact hb
          have him : i ∈ (st.userIndex identity.userId).map Identity.id :=
            List.mem_map.mpr ⟨j, hjl, hjid⟩
          obtain ⟨j', hj', hj'u⟩ := (hmemU i).mp him
          exact ⟨j',
            by rw [Registry.delete_prim_some st id identity h, if_neg hine]
               exact hj',
            hj'u.trans hu.symm⟩
        · rintro ⟨j, hj, hju⟩
          rw [Registry.delete_prim_some st id identity h] at hj
          by_cases hif : i = id
          · rw [if_pos hif] at hj
            exact Option.noConfusion hj
          · rw [if_neg hif] at hj
            have him : i ∈ (st.userIndex identity.userId).map Identity.id :=
              (hmemU i).mpr ⟨j, hj, hju.trans hu⟩
            obtain ⟨j', hj'l, hj'id⟩ := List.mem_map.mp him
            refine List.mem_map.mpr ⟨j', List.mem_filter.mpr ⟨hj'l, ?_⟩, hj'id⟩
            show (j'.id != id) = true
            rw [hj'id]
            exact bne_iff_ne.mpr hif
      · rw [if_neg hu]
        constructor
        · intro hi
          obtain ⟨j, hj, hju⟩ := (hmem i).mp hi
          have hine : i ≠ id := by
            intro he
            rw [he, h] at hj
            have hje : j = identity := (Option.some_inj.mp hj).symm
            rw [hje] at hju
            exact hu hju.symm
          exact ⟨j,
            by rw [Registry.delete_prim_some st id identity h, if_neg hine]
               exact hj,
            hju⟩
        · rintro ⟨j, hj, hju⟩
          rw [Registry.delete_prim_some st id identity h] at hj
          by_cases hif : i = id
          · rw [if_pos hif] at hj
            exact Option.noConfusion hj
          · rw [if_neg hif] at hj
            exact (hmem i).mpr ⟨j, hj, hju⟩

theorem Registry.inv_verifyIdentity (st : RegistryState) (id : String)
    (now : Nat) (hinv : Registry.Inv st) :
    Registry.Inv (Registry.verifyIdentity st id now).2 := by
  cases h : st.prim id with
  | none =>
    rw [Registry.verifyIdentity_none st id now h]
    exact hinv
  | some existing =>
    rw [Registry.verifyIdentity_some st id now existing h]
    exact Registry.inv_update st id _ now rfl hinv

theorem Registry.inv_deactivate (st : RegistryState) (id reason nowIso : String)
    (now : Nat) (hinv : Registry.Inv st) :
    Registry.Inv (Registry.deactivate st id reason nowIso now).2 := by
  cases h : st.prim id with
  | none =>
    rw [Registry.deactivate_none st id reason nowIso now h]
    exact hinv
  | some identity =>
    rw [Registry.deactivate_some st id reason nowIso now identity h]
    exact Registry.inv_update st id _ now rfl hinv

theorem Registry.inv_step (st : RegistryState) (op : RegOp)
    (hok : Registry.okOp st op) (hinv : Registry.Inv st) :
    Registry.Inv (Registry.step st op) := by
  cases op with
  | register input freshId now =>
    exact Registry.inv_register st input freshId now hok hinv
  | update id data now =>
    exact Registry.inv_update st id data now hok hinv
  | verifyIdentity id now =>
    exact Registry.inv_verifyIdentity st id now hinv
  | deactivate id reason nowIso now =>
    exact Registry.inv_deactivate st id reason nowIso now hinv
  | delete id =>
    exact Registry.inv_delete st id hinv

theorem Registry.inv_run (st : RegistryState) (ops : List RegOp)
    (hok : Registry.okSeq st ops) (hinv : Registry.Inv st) :
    Registry.Inv (Registry.run st ops) := by
  induction ops generalizing st with
  | nil => exact hinv
  | cons op ops ih => exact ih _ hok.2 (Registry.inv_step st op hok.1 hinv)

theorem Registry.inv_empty : Registry.Inv Registry.emptyState := by
  intro u
  refine ⟨by simp [Registry.emptyState], by simp [Registry.emptyState], ?_⟩
  intro i
  simp [Registry.emptyState]

/-! ## Character-level lemmas about the token encoding -/

theorem base36Digit_ne_colon_of_lt (n : Nat) (h : n < 36) :
    base36Digit n ≠ ':' := by
  revert h
  revert n
  decide

theorem natToBase36Aux_no_colon (fuel n : Nat) :
    ∀ c ∈ natToBase36Aux fuel n, c ≠ ':' := by
  induction fuel generalizing n with
  | zero => intro c hc; exact absurd hc (List.not_mem_nil c)
  | succ fuel ih =>
    intro c hc
    rw [natToBase36Aux] at hc
    by_cases h : n < 36
    · rw [if_pos h] at hc
      rw [List.mem_singleton] at hc
      rw [hc]
      exact base36Digit_ne_colon_of_lt n h
    · rw [if_neg h] at hc
      rcases List.mem_append.mp hc with h1 | h1
      · exact ih (n / 36) c h1
      · rw [List.mem_singleton] at h1
        rw [h1]
        exact base36Digit_ne_colon_of_lt (n % 36) (Nat.mod_lt n (by omega))

theorem natToBase36_no_colon (n : Nat) : ∀ c ∈ natToBase36 n, c ≠ ':' :=
  natToBase36Aux_no_colon 64 n

theorem decDigit_isDigit_of_lt (n : Nat) (h : n < 10) :
    isDecDigit (decDigit n) = true := by
  revert h
  revert n
  decide

theorem natToDecAux_all_digits (fuel n : Nat) :
    ∀ c ∈ natToDecAux fuel n, isDecDigit c = true := by
  induction fuel generalizing n with
  | zero => intro c hc; exact absurd hc (List.not_mem_nil c)
  | succ fuel ih =>
    intro c hc
    rw [natToDecAux] at hc
    by_cases h : n < 10
    · rw [if_pos h] at hc
      rw [List.mem_singleton] at hc
      rw [hc]
      exact decDigit_isDigit_of_lt n h
    · rw [if_neg h] at hc
      rcases List.mem_append.mp hc with h1 | h1
      · exact ih (n / 10) c h1
      · rw [List.mem_singleton] at h1
        rw [h1]
        exact decDigit_isDigit_of_lt (n % 10) (Nat.mod_lt n (by omega))

theorem natToDec_all_digits (n : Nat) :
    ∀ c ∈ natToDec n, isDecDigit c = true :=
  natToDecAux_all_digits 64 n

theorem isDecDigit_ne_colon (c : Char) (h : isDecDigit c = true) : c ≠ ':' := by
  intro he
  rw [he] at h
  exact absurd h (by decide)

theorem natToDec_no_colon (n : Nat) : ∀ c ∈ natToDec n, c ≠ ':' :=
  fun c hc => isDecDigit_ne_colon c (natToDec_all_digits n c hc)

theorem natToDecAux_ne_nil (fuel n : Nat) : natToDecAux (fuel + 1) n ≠ [] := by
  rw [natToDecAux]
  by_cases h : n < 10
  · rw [if_pos h]
    exact List.cons_ne_nil _ _
  · rw [if_neg h]
    intro hc
    rcases List.append_eq_nil.mp hc with ⟨_, h2⟩
    exact List.cons_ne_nil _ _ h2

theorem natToDec_ne_nil (n : Nat) : natToDec n ≠ [] :=
  natToDecAux_ne_nil 63 n

theorem decDigit_toNat_of_lt (n : Nat) (h : n < 10) :
    (decDigit n).toNat = 48 + n := by
  revert h
  revert n
  decide

theorem decDigitsVal_append_one (ds : List Char) (c : Char) :
    decDigitsVal (ds ++ [c]) = decDigitsVal ds * 10 + (c.toNat - 48) := by
  rw [decDigitsVal, decDigitsVal, List.foldl_append]
  rfl

theorem natToDecAux_val (fuel : Nat) :
    ∀ n : Nat, n < 10 ^ fuel → decDigitsVal (natToDecAux fuel n) = n := by
  induction fuel with
  | zero =>
    intro n hn
    have : n = 0 := by omega
    rw [this]
    rfl
  | succ fuel ih =>
    intro n hn
    rw [natToDecAux]
    by_cases h : n < 10
    · rw [if_pos h]
      show decDigitsVal [decDigit n] = n
      rw [decDigitsVal]
      show 0 * 10 + ((decDigit n).toNat - 48) = n
      rw [decDigit_toNat_of_lt n h]
      omega
    · rw [if_neg h]
      rw [decDigitsVal_append_one]
      have hdiv : n / 10 < 10 ^ fuel := by
        rw [Nat.div_lt_iff_lt_mul (by omega)]
        calc n < 10 ^ (fuel + 1) := hn
        _ = 10 ^ fuel * 10 := by ring
      rw [ih (n / 10) hdiv]
      rw [decDigit_toNat_of_lt (n % 10) (Nat.mod_lt n (by omega))]
      omega

theorem natToDec_val (n : Nat) (hn : n < 10 ^ 64) :
    decDigitsVal (natToDec n) = n :=
  natToDecAux_val 64 n hn

theorem takeWhile_all {p : Char → Bool} :
    ∀ l : List Char, (∀ c ∈ l, p c = true) → l.takeWhile p = l := by
  intro l
  induction l with
  | nil => intro _; rfl
  | cons c cs ih =>
    intro h
    rw [List.takeWhile_cons, h c (List.mem_cons_self c cs)]
    rw [ih (fun x hx => h x (List.mem_cons_of_mem c hx))]
    rfl

theorem parseIntJS_natToDec (n : Nat) (hn : n < 10 ^ 64) :
    parseIntJS (natToDec n) = some (n : Int) := by
  obtain ⟨c, cs, hccs⟩ := List.exists_cons_of_ne_nil (natToDec_ne_nil n)
  have hdig : ∀ x ∈ natToDec n, isDecDigit x = true := natToDec_all_digits n
  have hc : isDecDigit c = true := by
    refine hdig c ?_
    rw [hccs]
    exact List.mem_cons_self c cs
  have hcspace : (c = ' ') = False := by
    simp only [eq_iff_iff, iff_false]
    intro he
    rw [he] at hc
    exact absurd hc (by decide)
  have hcminus : c ≠ '-' := by
    intro he
    rw [he] at hc
    exact absurd hc (by decide)
  have hcplus : c ≠ '+' := by
    intro he
    rw [he] at hc
    exact absurd hc (by decide)
  have hdrop : (c :: cs).dropWhile (fun x => x = ' ') = c :: cs := by
    rw [List.dropWhile_cons]
    simp only [hcspace, decide_False]
    rfl
  rw [parseIntJS, hccs, hdrop, parseIntSigned, if_neg hcminus, if_neg hcplus]
  have htake : (c :: cs).takeWhile isDecDigit = c :: cs := by
    refine takeWhile_all (c :: cs) ?_
    rw [← hccs]
    exact hdig
  rw [htake]
  rw [if_neg (by simp)]
  rw [← hccs, natToDec_val n hn]

/-! ## Lemmas about `splitOnColon` -/

theorem splitOnColon_ne_nil (s : List Char) : splitOnColon s ≠ [] := by
  induction s with
  | nil => exact List.cons_ne_nil _ _
  | cons c rest ih =>
    rw [splitOnColon]
    cases h : splitOnColon rest with
    | nil => exact List.cons_ne_nil _ _
    | cons p ps =>
      show (if c = ':' then [] :: p :: ps else (c :: p) :: ps) ≠ []
      by_cases hc : c = ':'
      · rw [if_pos hc]
        exact List.cons_ne_nil _ _
      · rw [if_neg hc]
        exact List.cons_ne_nil _ _

theorem splitOnColon_cons_eq (c : Char) (rest : List Char) (p : List Char)
    (ps : List (List Char)) (h : splitOnColon rest = p :: ps) :
    splitOnColon (c :: rest) =
      (if c = ':' then [] :: p :: ps else (c :: p) :: ps) := by
  rw [splitOnColon, h]

theorem splitOnColon_append (a rest : List Char) (ha : ∀ c ∈ a, c ≠ ':') :
    splitOnColon (a ++ ':' :: rest) = a :: splitOnColon rest := by
  induction a with
  | nil =>
    obtain ⟨p, ps, hp⟩ := List.exists_cons_of_ne_nil (splitOnColon_ne_nil rest)
    show splitOnColon (':' :: rest) = [] :: splitOnColon rest
    rw [splitOnColon_cons_eq ':' rest p ps hp, if_pos rfl, hp]
  | cons x a' ih =>
    have hx : x ≠ ':' := ha x (List.mem_cons_self _ _)
    have ha' : ∀ c ∈ a', c ≠ ':' := fun c hc => ha c (List.mem_cons_of_mem _ hc)
    obtain ⟨p, ps, hp⟩ :=
      List.exists_cons_of_ne_nil (splitOnColon_ne_nil (a' ++ ':' :: rest))
    show splitOnColon (x :: (a' ++ ':' :: rest)) = (x :: a') :: splitOnColon rest
    rw [splitOnColon_cons_eq x _ p ps hp, if_neg hx]
    have heq := ih ha'
    rw [hp] at heq
    injection heq with h1 h2
    rw [h1, h2]

theorem splitOnColon_no_colon (a : List Char) (ha : ∀ c ∈ a, c ≠ ':') :
    splitOnColon a = [a] := by
  induction a with
  | nil => rfl
  | cons x a' ih =>
    have hx : x ≠ ':' := ha x (List.mem_cons_self _ _)
    have h' := ih (fun c hc => ha c (List.mem_cons_of_mem _ hc))
    rw [splitOnColon_cons_eq x a' a' [] h', if_neg hx]

theorem splitOnColon_three (u d g : List Char) (hu : ∀ c ∈ u, c ≠ ':')
    (hd : ∀ c ∈ d, c ≠ ':') (hg : ∀ c ∈ g, c ≠ ':') :
    splitOnColon (u ++ ':' :: (d ++ ':' :: g)) = [u, d, g] := by
  rw [splitOnColon_append u _ hu, splitOnColon_append d g hd,
    splitOnColon_no_colon g hg]

theorem splitOnColon_length (s : List Char) :
    (splitOnColon s).length = s.count ':' + 1 := by
  induction s with
  | nil => rfl
  | cons c rest ih =>
    obtain ⟨p, ps, hp⟩ := List.exists_cons_of_ne_nil (splitOnColon_ne_nil rest)
    rw [splitOnColon_cons_eq c rest p ps hp]
    rw [hp] at ih
    simp only [List.length_cons] at ih
    by_cases hc : c = ':'
    · rw [if_pos hc, hc, List.count_cons_self]
      simp only [List.length_cons]
      omega
    · rw [if_neg hc, List.count_cons_of_ne (Ne.symm hc)]
      simp only [List.length_cons]
      omega

/-- The minted token splits back into exactly its three fields whenever the
subject has no embedded colon (timestamp and signature are colon-free by
construction). -/
theorem FIDO2.generateSessionToken_eq (secret userId : List Char) (t : Nat) :
    FIDO2.generateSessionToken secret userId t =
      userId ++ ':' :: (natToDec t ++ ':' ::
        FIDO2.signToken secret userId (natToDec t)) := rfl

theorem splitOnColon_generateSessionToken (secret userId : List Char) (t : Nat)
    (hu : ∀ c ∈ userId, c ≠ ':') :
    splitOnColon (FIDO2.generateSessionToken secret userId t) =
      [userId, natToDec t, FIDO2.signToken secret userId (natToDec t)] := by
  rw [FIDO2.generateSessionToken_eq]
  exact splitOnColon_three userId (natToDec t) _ hu (natToDec_no_colon t)
    (natToBase36_no_colon _)

/-! ## Reductions of `verify` -/

theorem FIDO2.verifyParts_three (secret : List Char) (now : Nat)
    (u d g : List Char) :
    FIDO2.verifyParts secret now [u, d, g] =
      (if g ≠ FIDO2.signToken secret u d then
        { valid := false, error := some (jsStr "Invalid token signature") }
      else FIDO2.verifyTime now u (parseIntJS d)) := rfl

theorem FIDO2.verifyTime_some (now : Nat) (u : List Char) (tokenTime : Int) :
    FIDO2.verifyTime now u (some tokenTime) =
      (if (now : Int) > tokenTime + 86400000 then
        { valid := false, error := some (jsStr "Token expired") }
      else
        { valid := true, userId := some u,
          expiresAt := some (tokenTime + 86400000) }) := rfl

theorem FIDO2.verifyTime_none (now : Nat) (u : List Char) :
    FIDO2.verifyTime now u none =
      { valid := true, userId := some u, expiresAt := none } := rfl

theorem FIDO2.verifyParts_not_three (secret : List Char) (now : Nat)
    (parts : List (List Char)) (h : parts.length ≠ 3) :
    FIDO2.verifyParts secret now parts =
      { valid := false, error := some (jsStr "Invalid token format") } := by
  match parts with
  | [] => rfl
  | [a] => rfl
  | [a, b] => rfl
  | [a, b, c] => exact absurd rfl h
  | a :: b :: c :: d :: tl => rfl

/-! ## Claim C4 -/

/-- C4 (amended): for a colon-free subject, a session token minted at time
`t` is accepted by `verify` (valid, same subject, `expiresAt = t + 24h`)
whenever `verify` runs at or strictly before `t + 24h`, and is rejected as
expired whenever `verify` runs strictly after `t + 24h`.  The claim's
boundary is shifted by one instant: at exactly `t + 24h` the code still
accepts, because the expiry test is `Date.now() > expiresAt`. -/
theorem token_roundtrip_amended (secret userId : List Char) (t now : Nat)
    (hu : ∀ c ∈ userId, c ≠ ':') (ht : t < 10 ^ 64) :
    ((now : Int) ≤ (t : Int) + 86400000 →
      FIDO2.verify secret (FIDO2.generateSessionToken secret userId t) now =
        { valid := true, userId := some userId,
          expiresAt := some ((t : Int) + 86400000) }) ∧
    ((t : Int) + 86400000 < (now : Int) →
      FIDO2.verify secret (FIDO2.generateSessionToken secret userId t) now =
        { valid := false, error := some (jsStr "Token expired") }) := by
  have hsplit := splitOnColon_generateSessionToken secret userId t hu
  have hparse : parseIntJS (natToDec t) = some (t : Int) :=
    parseIntJS_natToDec t ht
  constructor
  · intro hle
    rw [FIDO2.verify, hsplit, FIDO2.verifyParts_three,
      if_neg (not_not_intro rfl), hparse, FIDO2.verifyTime_some,
      if_neg (not_lt.mpr hle)]
  · intro hlt
    rw [FIDO2.verify, hsplit, FIDO2.verifyParts_three,
      if_neg (not_not_intro rfl), hparse, FIDO2.verifyTime_some,
      if_pos hlt]

/-- C4 witness: concrete mint-then-verify round trip inside the window. -/
theorem token_roundtrip_amended_witness :
    FIDO2.verify (jsStr "s")
        (FIDO2.generateSessionToken (jsStr "s") (jsStr "u") 0) 5 =
      { valid := true, userId := some (jsStr "u"),
        expiresAt := some ((0 : Int) + 86400000) } :=
  (token_roundtrip_amended (jsStr "s") (jsStr "u") 0 5 (by decide)
    (by norm_num)).1 (by norm_num)

/-- C4 counterexample: the claim says a token is rejected as expired when
`verify` runs at or after `t + 24h`; at exactly `t + 24h` (mint at 0,
verify at 86400000) the code still returns `valid = true`. -/
theorem token_roundtrip_boundary_cex :
    FIDO2.verify (jsStr "s")
        (FIDO2.generateSessionToken (jsStr "s") (jsStr "u") 0) 86400000 =
      { valid := true, userId := some (jsStr "u"),
        expiresAt := some ((0 : Int) + 86400000) } := by
  decide

/-! ## Claim C10 -/

/-- C10: the minter never validates the subject, so for a subject with an
embedded colon the minted token splits into more than three fields and the
provider's own `verify` rejects it as malformed. -/
theorem token_colon_subject_rejected (secret userId : List Char) (t now : Nat)
    (hcol : ':' ∈ userId) :
    3 < (splitOnColon (FIDO2.generateSessionToken secret userId t)).length ∧
    FIDO2.verify secret (FIDO2.generateSessionToken secret userId t) now =
      { valid := false, error := some (jsStr "Invalid token format") } := by
  have hlen :
      3 < (splitOnColon (FIDO2.generateSessionToken secret userId t)).length := by
    rw [FIDO2.generateSessionToken_eq, splitOnColon_length, List.count_append,
      List.count_cons_self, List.count_append, List.count_cons_self]
    have hcu : 0 < userId.count ':' := List.count_pos_iff.mpr hcol
    omega
  refine ⟨hlen, ?_⟩
  rw [FIDO2.verify]
  exact FIDO2.verifyParts_not_three secret now _ (by omega)

/-- C10 witness: subject `a:b` yields a malformed, rejected token. -/
theorem token_colon_subject_rejected_witness :
    3 < (splitOnColon
      (FIDO2.generateSessionToken (jsStr "s") (jsStr "a:b") 0)).length ∧
    FIDO2.verify (jsStr "s")
        (FIDO2.generateSessionToken (jsStr "s") (jsStr "a:b") 0) 0 =
      { valid := false, error := some (jsStr "Invalid token format") } :=
  token_colon_subject_rejected (jsStr "s") (jsStr "a:b") 0 0 (by decide)

/-! ## Claim C5 -/

/-- C5: `verify` classifies every rejected input under exactly one of three
pairwise-distinct error reasons, with non-overlapping conditions checked in
order: wrong field count, then signature mismatch against the keyed hash of
the first two fields, then the expired window; and a result is invalid
exactly when it carries an error. -/
theorem verify_error_reasons_classification (secret token : List Char)
    (now : Nat) :
    ((FIDO2.verify secret token now).valid = false ↔
      (FIDO2.verify secret token now).error ≠ none) ∧
    ((FIDO2.verify secret token now).error = some (jsStr "Invalid token format")
      ↔ (splitOnColon token).length ≠ 3) ∧
    ((FIDO2.verify secret token now).error =
        some (jsStr "Invalid token signature") ↔
      (∃ u d g, splitOnColon token = [u, d, g] ∧
        g ≠ FIDO2.signToken secret u d)) ∧
    ((FIDO2.verify secret token now).error = some (jsStr "Token expired") ↔
      (∃ u d tt, splitOnColon token = [u, d, FIDO2.signToken secret u d] ∧
        parseIntJS d = some tt ∧ (now : Int) > tt + 86400000)) ∧
    (jsStr "Invalid token format" ≠ jsStr "Invalid token signature") ∧
    (jsStr "Invalid token format" ≠ jsStr "Token expired") ∧
    (jsStr "Invalid token signature" ≠ jsStr "Token expired") := by
  by_cases hlen : (splitOnColon token).length = 3
  · obtain ⟨u, d, g, hs⟩ := List.length_eq_three.mp hlen
    have hv : FIDO2.verify secret token now =
        (if g ≠ FIDO2.signToken secret u d then
          { valid := false, error := some (jsStr "Invalid token signature") }
        else FIDO2.verifyTime now u (parseIntJS d)) := by
      rw [FIDO2.verify, hs, FIDO2.verifyParts_three]
    by_cases hsig : g = FIDO2.signToken secret u d
    · rw [if_neg (not_not_intro hsig)] at hv
      rcases hp : parseIntJS d with _ | tt
      · rw [hp, FIDO2.verifyTime_none] at hv
        refine ⟨?_, ?_, ?_, ?_, by decide, by decide, by decide⟩
        · rw [hv]
          simp
        · rw [hv]
          constructor
          · intro h
            exact absurd h (by simp)
          · intro h
            exact absurd hlen h
        · rw [hv]
          constructor
          · intro h
            exact absurd h (by simp)
          · rintro ⟨u', d', g', heq, hne⟩
            rw [hs] at heq
            injection heq with h1 htl
            injection htl with h2 htl2
            injection htl2 with h3 _
            rw [← h1, ← h2] at hne
            rw [← h3] at hne
            exact absurd hsig hne
        · rw [hv]
          constructor
          · intro h
            exact absurd h (by simp)
          · rintro ⟨u', d', tt, heq, hptt, hgt⟩
            rw [hs] at heq
            injection heq with h1 htl
            injection htl with h2 _
            rw [← h2, hp] at hptt
            exact Option.noConfusion hptt
      · rw [hp, FIDO2.verifyTime_some] at hv
        by_cases hgt : (now : Int) > tt + 86400000
        · rw [if_pos hgt] at hv
          refine ⟨?_, ?_, ?_, ?_, by decide, by decide, by decide⟩
          · rw [hv]
            simp
          · rw [hv]
            constructor
            · intro h
              exact absurd h (by decide)
            · intro h
              exact absurd hlen h
          · rw [hv]
            constructor
            · intro h
              exact absurd h (by decide)
            · rintro ⟨u', d', g', heq, hne⟩
              rw [hs] at heq
              injection heq with h1 htl
              injection htl with h2 htl2
              injection htl2 with h3 _
              rw [← h1, ← h2] at hne
              rw [← h3] at hne
              exact absurd hsig hne
          · rw [hv]
            constructor
            · intro _
              refine ⟨u, d, tt, ?_, hp, hgt⟩
              rw [hs, hsig]
            · intro _
              rfl
        · rw [if_neg hgt] at hv
          refine ⟨?_, ?_, ?_, ?_, by decide, by decide, by decide⟩
          · rw [hv]
            simp
          · rw [hv]
            constructor
            · intro h
              exact absurd h (by simp)
            · intro h
              exact absurd hlen h
          · rw [hv]
            constructor
            · intro h
              exact absurd h (by simp)
            · rintro ⟨u', d', g', heq, hne⟩
              rw [hs] at heq
              injection heq with h1 htl
              injection htl with h2 htl2
              injection htl2 with h3 _
              rw [← h1, ← h2] at hne
              rw [← h3] at hne
              exact absurd hsig hne
          · rw [hv]
            constructor
            · intro h
              exact absurd h (by simp)
            · rintro ⟨u', d', tt', heq, hptt, hgt'⟩
              rw [hs] at heq
              injection heq with h1 htl
              injection htl with h2 _
              rw [← h2, hp] at hptt
              injection hptt with htt
              rw [← htt] at hgt'
              exact absurd hgt' hgt
    · rw [if_pos hsig] at hv
      refine ⟨?_, ?_, ?_, ?_, by decide, by decide, by decide⟩
      · rw [hv]
        simp
      · rw [hv]
        constructor
        · intro h
          exact absurd h (by decide)
        · intro h
          exact absurd hlen h
      · rw [hv]
        constructor
        · intro _
          exact ⟨u, d, g, hs, hsig⟩
        · intro _
          rfl
      · rw [hv]
        constructor
        · intro h
          exact absurd h (by decide)
        · rintro ⟨u', d', tt, heq, hptt, hgt⟩
          rw [hs] at heq
          injection heq with h1 htl
          injection htl with h2 htl2
          injection htl2 with h3 _
          rw [← h1, ← h2] at h3
          exact absurd h3 hsig
  · have hv : FIDO2.verify secret token now =
        { valid := false, error := some (jsStr "Invalid token format") } := by
      rw [FIDO2.verify]
      exact FIDO2.verifyParts_not_three secret now _ hlen
    refine ⟨?_, ?_, ?_, ?_, by decide, by decide, by decide⟩
    · rw [hv]
      simp
    · rw [hv]
      constructor
      · intro _
        exact hlen
      · intro _
        rfl
    · rw [hv]
      constructor
      · intro h
        exact absurd h (by decide)
      · rintro ⟨u, d, g, heq, -⟩
        have h3 : (splitOnColon token).length = 3 := by
          rw [heq]
          rfl
        exact absurd h3 hlen
    · rw [hv]
      constructor
      · intro h
        exact absurd h (by decide)
      · rintro ⟨u, d, tt, heq, -, -⟩
        have h3 : (splitOnColon token).length = 3 := by
          rw [heq]
          rfl
        exact absurd h3 hlen

/-! ## Claim C6 -/

/-- C6: for a present id, `update` returns the merge whose `id` and
`createdAt` are the pre-update stored values — whatever the payload carries —
and whose `updatedAt` is freshly stamped; for an absent id it fails with the
`NotFound` error and returns the state unchanged. -/
theorem registry_update_frame (st : RegistryState) (id : String)
    (data : IdentityPatch) (now : Nat) :
    (∀ existing, st.prim id = some existing →
      (Registry.update st id data now).1 =
        Except.ok (Registry.applyPatch existing data now) ∧
      (Registry.applyPatch existing data now).id = existing.id ∧
      (Registry.applyPatch existing data now).createdAt = existing.createdAt ∧
      (Registry.applyPatch existing data now).updatedAt = now ∧
      (Registry.update st id data now).2.prim id =
        some (Registry.applyPatch existing data now)) ∧
    (st.prim id = none →
      Registry.update st id data now =
        (Except.error ("Identity " ++ id ++ " not found"), st)) := by
  constructor
  · intro existing h
    rw [Registry.update_some st id data now existing h]
    exact ⟨rfl, rfl, rfl, rfl, by simp⟩
  · intro h
    exact Registry.update_none st id data now h

/-- C6 witness: a payload that supplies both `id` and `createdAt` is
overridden by the stored values. -/
theorem registry_update_frame_witness :
    (Registry.update regW "id1"
        { id := some "HACK", createdAt := some 99 } 5).1 =
      Except.ok (Registry.applyPatch identW
        { id := some "HACK", createdAt := some 99 } 5) ∧
    (Registry.applyPatch identW
        { id := some "HACK", createdAt := some 99 } 5).id = identW.id ∧
    (Registry.applyPatch identW
        { id := some "HACK", createdAt := some 99 } 5).createdAt =
      identW.createdAt ∧
    (Registry.applyPatch identW
        { id := some "HACK", createdAt := some 99 } 5).updatedAt = 5 ∧
    (Registry.update regW "id1"
        { id := some "HACK", createdAt := some 99 } 5).2.prim "id1" =
      some (Registry.applyPatch identW
        { id := some "HACK", createdAt := some 99 } 5) :=
  (registry_update_frame regW "id1"
    { id := some "HACK", createdAt := some 99 } 5).1 identW (by decide)

/-! ## Claim C7 -/

/-- C7: `delete` of an absent id returns `false` without raising and changes
nothing; `delete` of a present id returns `true`, removes the primary row
(`get` is then absent) and prunes the owner's secondary index (`findByUser`
for the owner no longer mentions the deleted id). -/
theorem registry_delete_semantics (st : RegistryState) (id : String) :
    (st.prim id = none → Registry.delete st id = (false, st)) ∧
    (∀ identity, st.prim id = some identity →
      (Registry.delete st id).1 = true ∧
      Registry.get (Registry.delete st id).2 id = none ∧
      ∀ j ∈ Registry.findByUser (Registry.delete st id).2 identity.userId,
        j.id ≠ id) := by
  constructor
  · exact Registry.delete_none st id
  · intro identity h
    refine ⟨?_, ?_, ?_⟩
    · rw [Registry.delete_some st id identity h]
    · show (Registry.delete st id).2.prim id = none
      rw [Registry.delete_prim_some st id identity h, if_pos rfl]
    · intro j hj
      have hidx : Registry.findByUser (Registry.delete st id).2 identity.userId =
          (st.userIndex identity.userId).filter (fun i => i.id != id) := by
        show (Registry.delete st id).2.userIndex identity.userId = _
        rw [Registry.delete_userIndex_some st id identity h, if_pos rfl]
      rw [hidx] at hj
      exact bne_iff_ne.mp (List.mem_filter.mp hj).2

/-- C7 witness: deleting an unknown id returns `false`; deleting the one
registered id empties both the primary row and the owner's index. -/
theorem registry_delete_semantics_witness :
    Registry.delete Registry.emptyState "nope" = (false, Registry.emptyState) ∧
    ((Registry.delete regW "id1").1 = true ∧
     Registry.get (Registry.delete regW "id1").2 "id1" = none ∧
     ∀ j ∈ Registry.findByUser (Registry.delete regW "id1").2 identW.userId,
       j.id ≠ "id1") :=
  ⟨(registry_delete_semantics Registry.emptyState "nope").1 rfl,
   (registry_delete_semantics regW "id1").2 identW (by decide)⟩

/-! ## Claim C9 -/

/-- C9 counterexample: `generateId` (a `Date.now()` prefix plus a
`Math.random()` base-36 suffix) carries no freshness guarantee, and
`register` performs no uniqueness check against existing rows; when the
generator repeats an output — same millisecond, same random suffix — the
second `register` returns an identity whose id equals the id of a
previously registered identity (and its primary write silently overwrites
the earlier row). -/
theorem register_id_collision_cex :
    ((Registry.register
        (Registry.register Registry.emptyState inpW "5-k2f9q" 5).2
        inpW2 "5-k2f9q" 5).1).id =
      ((Registry.register Registry.emptyState inpW "5-k2f9q" 5).1).id ∧
    ((Registry.register Registry.emptyState inpW "5-k2f9q" 5).1) ≠
      ((Registry.register
        (Registry.register Registry.emptyState inpW "5-k2f9q" 5).2
        inpW2 "5-k2f9q" 5).1) := by
  decide

/-- C9 (amended): after any well-formed operation sequence from the empty
registry, `register` returns an identity with `createdAt = updatedAt`, and
its id differs from every previously registered identity's id provided the
freshly generated id does not collide with an existing primary row — a
freshness assumption the code itself never checks. -/
theorem register_fresh_unique_amended (ops : List RegOp)
    (input : RegisterInput) (freshId : String) (now : Nat)
    (hok : Registry.okSeq Registry.emptyState ops)
    (hfresh : (Registry.run Registry.emptyState ops).prim freshId = none) :
    ((Registry.register (Registry.run Registry.emptyState ops) input
        freshId now).1).createdAt =
      ((Registry.register (Registry.run Registry.emptyState ops) input
        freshId now).1).updatedAt ∧
    (∀ u, ((Registry.register (Registry.run Registry.emptyState ops) input
        freshId now).1).id ∉
      (Registry.findByUser (Registry.run Registry.emptyState ops) u).map
        Identity.id) ∧
    (∀ k j, Registry.get (Registry.run Registry.emptyState ops) k = some j →
      k ≠ ((Registry.register (Registry.run Registry.emptyState ops) input
        freshId now).1).id) := by
  have hinv : Registry.Inv (Registry.run Registry.emptyState ops) :=
    Registry.inv_run Registry.emptyState ops hok Registry.inv_empty
  refine ⟨rfl, ?_, ?_⟩
  · intro u hc
    have hid : ((Registry.register (Registry.run Registry.emptyState ops) input
        freshId now).1).id = freshId := rfl
    rw [hid] at hc
    obtain ⟨j, hj, _⟩ := ((hinv u).2.2 freshId).mp hc
    rw [hfresh] at hj
    exact Option.noConfusion hj
  · intro k j hj hk
    have hid : ((Registry.register (Registry.run Registry.emptyState ops) input
        freshId now).1).id = freshId := rfl
    rw [hid] at hk
    rw [hk] at hj
    show False
    rw [Registry.get, hfresh] at hj
    exact Option.noConfusion hj

/-- C9 witness: one prior registration, then a fresh id. -/
theorem register_fresh_unique_amended_witness :
    ((Registry.register
        (Registry.run Registry.emptyState [RegOp.register inpW "id1" 0])
        inpW3 "id2" 7).1).createdAt =
      ((Registry.register
        (Registry.run Registry.emptyState [RegOp.register inpW "id1" 0])
        inpW3 "id2" 7).1).updatedAt ∧
    (∀ u, ((Registry.register
        (Registry.run Registry.emptyState [RegOp.register inpW "id1" 0])
        inpW3 "id2" 7).1).id ∉
      (Registry.findByUser
        (Registry.run Registry.emptyState [RegOp.register inpW "id1" 0]) u).map
        Identity.id) ∧
    (∀ k j, Registry.get
        (Registry.run Registry.emptyState [RegOp.register inpW "id1" 0]) k =
          some j →
      k ≠ ((Registry.register
        (Registry.run Registry.emptyState [RegOp.register inpW "id1" 0])
        inpW3 "id2" 7).1).id) :=
  register_fresh_unique_amended [RegOp.register inpW "id1" 0]
        inpW3 "id2" 7 ⟨rfl, trivial⟩ (by decide)

/-! ## Claim C3 -/

/-- C3 counterexample: `register` then `verifyIdentity` on the same id; the
primary row now has `verified = true` while the owner's index still lists
the stale pre-update copy with `verified = false` — `update` (and so
`verifyIdentity`/`deactivate`) rewrites only the primary row, leaving the
secondary index's field values out of sync with the primary store. -/
theorem registry_index_stale_cex :
    (Registry.findByUser
      (Registry.run Registry.emptyState
        [RegOp.register inpW "id1" 0, RegOp.verifyIdentity "id1" 1])
      "u1").map Identity.verified = [false] ∧
    (Registry.get
      (Registry.run Registry.emptyState
        [RegOp.register inpW "id1" 0, RegOp.verifyIdentity "id1" 1])
      "id1").map Identity.verified = some true := by
  decide

/-- C3 (amended): after any finite sequence of registry operations from the
empty state in which each `register` uses a generated id not already present
and no `update` payload carries a `userId`, the index and the primary store
agree on membership: every identity listed under `u` belongs to `u`, the
listed ids are duplicate-free, and an id is listed under `u` exactly when
its primary row exists and is owned by `u`.  Field values of listed entries
may still lag behind the primary row, because `update` (and therefore
`verifyIdentity` and `deactivate`) rewrites only the primary row — see the
counterexample. -/
theorem registry_index_membership_sync (ops : List RegOp)
    (hok : Registry.okSeq Registry.emptyState ops) :
    ∀ u : String,
      (∀ j ∈ Registry.findByUser (Registry.run Registry.emptyState ops) u,
        j.userId = u) ∧
      ((Registry.findByUser (Registry.run Registry.emptyState ops) u).map
        Identity.id).Nodup ∧
      (∀ i : String,
        i ∈ (Registry.findByUser (Registry.run Registry.emptyState ops) u).map
          Identity.id ↔
        ∃ j, Registry.get (Registry.run Registry.emptyState ops) i = some j ∧
          j.userId = u) :=
  Registry.inv_run Registry.emptyState ops hok Registry.inv_empty

/-- C3 witness: register two identities for two users, verify one, delete
one; membership stays in sync. -/
theorem registry_index_membership_sync_witness :
    Registry.okSeq Registry.emptyState
      [RegOp.register inpW "id1" 0,
       RegOp.register inpW2 "id2" 1,
       RegOp.verifyIdentity "id1" 2,
       RegOp.delete "id2"] ∧
    (∀ u : String,
      (∀ j ∈ Registry.findByUser (Registry.run Registry.emptyState
        [RegOp.register inpW "id1" 0,
         RegOp.register inpW2 "id2" 1,
         RegOp.verifyIdentity "id1" 2,
         RegOp.delete "id2"]) u, j.userId = u) ∧
      ((Registry.findByUser (Registry.run Registry.emptyState
        [RegOp.register inpW "id1" 0,
         RegOp.register inpW2 "id2" 1,
         RegOp.verifyIdentity "id1" 2,
         RegOp.delete "id2"]) u).map Identity.id).Nodup ∧
      (∀ i : String,
        i ∈ (Registry.findByUser (Registry.run Registry.emptyState
          [RegOp.register inpW "id1" 0,
           RegOp.register inpW2 "id2" 1,
           RegOp.verifyIdentity "id1" 2,
           RegOp.delete "id2"]) u).map Identity.id ↔
        ∃ j, Registry.get (Registry.run Registry.emptyState
          [RegOp.register inpW "id1" 0,
           RegOp.register inpW2 "id2" 1,
           RegOp.verifyIdentity "id1" 2,
           RegOp.delete "id2"]) i = some j ∧ j.userId = u)) :=
  ⟨⟨rfl, rfl, trivial, trivial, trivial⟩,
   registry_index_membership_sync
     [RegOp.register inpW "id1" 0,
      RegOp.register inpW2 "id2" 1,
      RegOp.verifyIdentity "id1" 2,
      RegOp.delete "id2"]
     ⟨rfl, rfl, trivial, trivial, trivial⟩⟩

/-! ## Claim C1 -/

/-- C1: replay protection.  For a registered credential with stored counter
`N`, an assertion that passes the type/origin/credential checks and carries
counter `<= N` yields an unsuccessful result with the cloned-authenticator
security rejection and leaves the stored counter at `N`; an assertion
carrying counter `> N` yields a successful result and sets the stored
counter to exactly the asserted value. -/
theorem fido2_counter_replay_protection
    (st : FIDO2State) (configOrigin secret freshChallengeId : List Char)
    (challengeValue ts now : Nat) (a : Assertion) (cred : FIDO2Credential)
    (hcred : st.credentials a.credentialId = some cred)
    (htype : a.clientDataType = jsStr "webauthn.get")
    (horigin : a.clientDataOrigin = configOrigin)
    (hlen : 37 ≤ a.authData.length) :
    (FIDO2.getCounterFromAuthData a.authData ≤ cred.counter →
      (FIDO2.authenticate st configOrigin secret true freshChallengeId
        challengeValue ts now (Except.ok (some a))).1.success = false ∧
      (FIDO2.authenticate st configOrigin secret true freshChallengeId
        challengeValue ts now (Except.ok (some a))).1.error =
        some (jsStr "Invalid counter - possible cloned authenticator") ∧
      (FIDO2.authenticate st configOrigin secret true freshChallengeId
        challengeValue ts now (Except.ok (some a))).2.credentials a.credentialId
        = some cred) ∧
    (cred.counter < FIDO2.getCounterFromAuthData a.authData →
      (FIDO2.authenticate st configOrigin secret true freshChallengeId
        challengeValue ts now (Except.ok (some a))).1.success = true ∧
      (FIDO2.authenticate st configOrigin secret true freshChallengeId
        challengeValue ts now (Except.ok (some a))).2.credentials a.credentialId
        = some { cred with counter := FIDO2.getCounterFromAuthData a.authData })
    := by
  have hnl : ¬(a.authData.length < 37) := not_lt.mpr hlen
  constructor
  · intro hle
    simp [FIDO2.authenticate, hcred, htype, horigin, hnl, hle]
  · intro hgt
    have hnle : ¬(FIDO2.getCounterFromAuthData a.authData ≤ cred.counter) :=
      not_le.mpr hgt
    simp [FIDO2.authenticate, hcred, htype, horigin, hnl, hnle]

/-- C1 witness: stored counter 5, asserted counter 6 (bytes 33-36 big-endian)
— authentication succeeds and the stored counter advances to 6. -/
theorem fido2_counter_replay_protection_witness :
    (FIDO2.getCounterFromAuthData assertW.authData ≤ credW.counter →
      (FIDO2.authenticate fidoStW (jsStr "http://localhost:3000") (jsStr "s")
        true (jsStr "ch1") 7 100 200 (Except.ok (some assertW))).1.success =
        false ∧
      (FIDO2.authenticate fidoStW (jsStr "http://localhost:3000") (jsStr "s")
        true (jsStr "ch1") 7 100 200 (Except.ok (some assertW))).1.error =
        some (jsStr "Invalid counter - possible cloned authenticator") ∧
      (FIDO2.authenticate fidoStW (jsStr "http://localhost:3000") (jsStr "s")
        true (jsStr "ch1") 7 100 200
        (Except.ok (some assertW))).2.credentials assertW.credentialId =
        some credW) ∧
    (credW.counter < FIDO2.getCounterFromAuthData assertW.authData →
      (FIDO2.authenticate fidoStW (jsStr "http://localhost:3000") (jsStr "s")
        true (jsStr "ch1") 7 100 200 (Except.ok (some assertW))).1.success =
        true ∧
      (FIDO2.authenticate fidoStW (jsStr "http://localhost:3000") (jsStr "s")
        true (jsStr "ch1") 7 100 200
        (Except.ok (some assertW))).2.credentials assertW.credentialId =
        some { credW with
          counter := FIDO2.getCounterFromAuthData assertW.authData }) :=
  fido2_counter_replay_protection fidoStW (jsStr "http://localhost:3000")
    (jsStr "s") (jsStr "ch1") 7 100 200 assertW credW (by decide) rfl rfl
    (by decide)

/-! ## Claim C2 -/

/-- C2 counterexample: a successful authentication ceremony — one that
reaches and passes the counter comparison — does not delete the challenge
it stored: the entry under the generated challenge id survives in the
challenge map, so authentication challenges are never consumed. -/
theorem fido2_auth_challenge_not_consumed_cex :
    (FIDO2.authenticate fidoStW (jsStr "http://localhost:3000") (jsStr "s")
      true (jsStr "ch1") 7 100 200 (Except.ok (some assertW))).1.success =
      true ∧
    (FIDO2.authenticate fidoStW (jsStr "http://localhost:3000") (jsStr "s")
      true (jsStr "ch1") 7 100 200
      (Except.ok (some assertW))).2.challenges (jsStr "ch1") =
      some { value := 7, timestamp := 100 } := by
  decide

/-- C2 (amended): registration challenges are consumed on every attempt in a
supported environment: after `register` — successful or failing — no
challenge keyed by that `userId` remains.  Authentication challenges are
not: `authenticate` stores a fresh challenge under a generated challenge id
and deletes none, whatever the ceremony outcome, so the new entry and every
previously stored challenge survive the call. -/
theorem fido2_challenge_consumption_amended
    (st : FIDO2State) (configOrigin secret : List Char)
    (options : RegistrationOptions) (freshChallengeId : List Char)
    (challengeValue ts now : Nat)
    (ceremonyR : Except (List Char) (Option Attestation))
    (ceremonyA : Except (List Char) (Option Assertion)) :
    ((FIDO2.register st configOrigin true options challengeValue ts now
      ceremonyR).2.challenges options.userId = none) ∧
    ((FIDO2.authenticate st configOrigin secret true freshChallengeId
      challengeValue ts now ceremonyA).2.challenges freshChallengeId =
      some { value := challengeValue, timestamp := ts }) ∧
    (∀ k, k ≠ freshChallengeId →
      (FIDO2.authenticate st configOrigin secret true freshChallengeId
        challengeValue ts now ceremonyA).2.challenges k = st.challenges k) := by
  refine ⟨?_, ?_, ?_⟩
  · simp only [FIDO2.register]
    split
    · split
      · simp
      · simp
    · exact absurd trivial (by assumption)
  · simp only [FIDO2.authenticate]
    rcases ceremonyA with e | a'
    · simp
    · rcases a' with _ | a
      · simp
      · simp only [if_true]
        split
        · simp
        · split
          · simp
          · split
            · simp
            · split
              · simp
              · split
                · simp
                · simp
  · intro k hk
    simp only [FIDO2.authenticate]
    rcases ceremonyA with e | a'
    · simp [hk]
    · rcases a' with _ | a
      · simp [hk]
      · simp only [if_true]
        split
        · simp [hk]
        · split
          · simp [hk]
          · split
            · simp [hk]
            · split
              · simp [hk]
              · split
                · simp [hk]
                · simp [hk]

/-! ## Claim C8 -/

/-- C8 counterexample: for a plugin whose `destroy` rejects, `unregister`
propagates the destroy error and the plugin is still registered afterwards —
`this.plugins.delete` is only reached when `await plugin.destroy()` does not
throw, contradicting the claim that the table entry is removed even when
`destroy` raises. -/
theorem plugin_unregister_destroy_failure_cex :
    (PluginLoader.unregister loaderW "bad").1 =
      Except.error "destroy exploded" ∧
    PluginLoader.get (PluginLoader.unregister loaderW "bad").2 "bad" =
      some pluginBadW := by
  constructor
  · rfl
  · rfl

/-- C8 (amended): `unregister` of an unknown name raises `NotFound` and
leaves the table unchanged; when the plugin's `destroy` rejects, the error
propagates and the plugin remains registered (the table is unchanged); only
when `destroy` resolves is the plugin removed, leaving every other entry
untouched. -/
theorem plugin_unregister_amended (st : LoaderState) (pluginName : String) :
    (st.plugins pluginName = none →
      PluginLoader.unregister st pluginName =
        (Except.error ("Plugin \"" ++ pluginName ++ "\" not found"), st)) ∧
    (∀ p e, st.plugins pluginName = some p → p.destroyError = some e →
      PluginLoader.unregister st pluginName = (Except.error e, st)) ∧
    (∀ p, st.plugins pluginName = some p → p.destroyError = none →
      (PluginLoader.unregister st pluginName).1 = Except.ok () ∧
      PluginLoader.get (PluginLoader.unregister st pluginName).2 pluginName =
        none ∧
      (∀ k, k ≠ pluginName →
        PluginLoader.get (PluginLoader.unregister st pluginName).2 k =
          st.plugins k)) := by
  refine ⟨?_, ?_, ?_⟩
  · intro h
    simp [PluginLoader.unregister, h]
  · intro p e hp he
    simp [PluginLoader.unregister, hp, he]
  · intro p hp he
    refine ⟨?_, ?_, ?_⟩
    · simp [PluginLoader.unregister, hp, he]
    · simp [PluginLoader.unregister, PluginLoader.get, hp, he]
    · intro k hk
      simp [PluginLoader.unregister, PluginLoader.get, hp, he, hk]

/-- C8 witness: a loader holding one plugin with failing `destroy` and one
with succeeding `destroy`; all three branches of the amended behaviour at
concrete names. -/
theorem plugin_unregister_amended_witness :
    (PluginLoader.unregister loaderW "missing" =
      (Except.error ("Plugin \"" ++ "missing" ++ "\" not found"), loaderW)) ∧
    (PluginLoader.unregister loaderW "bad" =
      (Except.error "destroy exploded", loaderW)) ∧
    ((PluginLoader.unregister loaderW "good").1 = Except.ok () ∧
     PluginLoader.get (PluginLoader.unregister loaderW "good").2 "good" =
       none ∧
     (∀ k, k ≠ "good" →
       PluginLoader.get (PluginLoader.unregister loaderW "good").2 k =
         loaderW.plugins k)) :=
  ⟨(plugin_unregister_amended loaderW "missing").1 rfl,
   (plugin_unregister_amended loaderW "bad").2.1 pluginBadW "destroy exploded"
     rfl rfl,
   (plugin_unregister_amended loaderW "good").2.2 pluginGoodW (by decide) rfl⟩

/-- C2 witness: a failing registration ceremony still consumes the `u1`
challenge; a successful authentication stores a challenge under `ch1` and
leaves unrelated challenge keys untouched. -/
theorem fido2_challenge_consumption_amended_witness :
    ((FIDO2.register fidoStW (jsStr "http://localhost:3000") true regOptW
      7 100 200 (Except.error (jsStr "boom"))).2.challenges regOptW.userId =
      none) ∧
    ((FIDO2.authenticate fidoStW (jsStr "http://localhost:3000") (jsStr "s")
      true (jsStr "ch1") 7 100 200
      (Except.ok (some assertW))).2.challenges (jsStr "ch1") =
      some { value := 7, timestamp := 100 }) ∧
    ((FIDO2.authenticate fidoStW (jsStr "http://localhost:3000") (jsStr "s")
      true (jsStr "ch1") 7 100 200
      (Except.ok (some assertW))).2.challenges (jsStr "zz") =
      fidoStW.challenges (jsStr "zz")) :=
  ⟨(fido2_challenge_consumption_amended fidoStW (jsStr "http://localhost:3000")
      (jsStr "s") regOptW (jsStr "ch1") 7 100 200
      (Except.error (jsStr "boom")) (Except.ok (some assertW))).1,
   (fido2_challenge_consumption_amended fidoStW (jsStr "http://localhost:3000")
      (jsStr "s") regOptW (jsStr "ch1") 7 100 200
      (Except.error (jsStr "boom")) (Except.ok (some assertW))).2.1,
   (fido2_challenge_consumption_amended fidoStW (jsStr "http://localhost:3000")
      (jsStr "s") regOptW (jsStr "ch1") 7 100 200
      (Except.error (jsStr "boom")) (Except.ok (some assertW))).2.2
     (jsStr "zz") (by decide)⟩

/-- C5 witness: a malformed token is classified under the format reason. -/
theorem verify_error_reasons_classification_witness :
    (FIDO2.verify (jsStr "s") (jsStr "bad") 0).error =
      some (jsStr "Invalid token format") :=
  ((verify_error_reasons_classification (jsStr "s") (jsStr "bad") 0).2.1).mpr
    (by decide)
